import Mathlib

/-
Verification of the audio2corpus repository core:
segment splitting (src/audio2corpus/preprocessor.py, split_audio),
the conversion pipeline (convert_audio), and the HTTP handlers
(src/api/fast.py, transcribe and return_media).

Modelling conventions:
* A pydub AudioSegment is modelled as a frame rate together with a list
  holding one abstract sample per millisecond, so that List.length is the
  value of len(audio) in milliseconds and list slicing is pydub slicing.
* resampling (set_frame_rate) is delegated by the code to an external
  library; it preserves the duration in milliseconds, so the model keeps
  the per-millisecond content and changes the rate.
* Python exceptions are modelled with Except: convert_audio_body is the
  body of the try block, and convert_audio applies the blanket except
  that turns any error into a False return. File exports are collected
  in a log; in the source, every failure of the body happens before the
  first export call, so the log on the error path is empty.
* Paths are strings; the relevant fragment of pathlib.with_suffix
  (including the ValueError on a suffix without a leading dot) is
  modelled character by character.
-/

deriving instance DecidableEq for Except

namespace Audio2Corpus

/-- Model of a pydub AudioSegment: a sample rate in Hz and one abstract
sample per millisecond of audio, so len(audio) is samples.length. -/
structure AudioSeg (α : Type) where
  frame_rate : Nat
  samples : List α
deriving DecidableEq, Repr

/-- Model of AudioSegment.set_frame_rate: resampling changes the rate and
preserves the duration; the per-millisecond content is abstract. -/
def AudioSeg.set_frame_rate {α : Type} (audio : AudioSeg α) (sr : Nat) : AudioSeg α :=
  AudioSeg.mk sr audio.samples

/-- Python list or AudioSegment slicing audio[a:b] for a ≤ b. -/
def pySlice {α : Type} (l : List α) (a b : Nat) : List α :=
  (l.drop a).take (b - a)

/-- The loop of split_audio: for start in range(0, audio_length, segment_length),
with end = min(start + segment_length, audio_length) and segment = audio[start:end].
An empty step or an exhausted start ends the loop. -/
def split_audio_loop {α : Type} (samples : List α) (segment_length : Nat) (start : Nat) :
    List (List α) :=
  if h : 0 < segment_length ∧ start < samples.length then
    pySlice samples start (min (start + segment_length) samples.length) ::
      split_audio_loop samples segment_length (start + segment_length)
  else []
termination_by samples.length - start
decreasing_by simp_wf; omega

/-- Python exceptions that the modelled code can raise. -/
inductive PyErr where
  | decodeError
  | valueError
deriving DecidableEq, Repr

/-- Model of split_audio(audio, segment_length): walks the buffer in windows
of segment_length milliseconds. A zero segment_length makes range raise
ValueError (range() arg 3 must not be zero), modelled as an error. -/
def split_audio {α : Type} (audio : AudioSeg α) (segment_length : Nat) :
    Except PyErr (List (AudioSeg α)) :=
  if segment_length = 0 then Except.error PyErr.valueError
  else Except.ok ((split_audio_loop audio.samples segment_length 0).map
    (fun s => AudioSeg.mk audio.frame_rate s))

/-- The normalize step of convert_audio: if current_sr != target_sr then
audio = audio.set_frame_rate(target_sr), otherwise the buffer is unchanged. -/
def normalize {α : Type} (target_sr : Nat) (audio : AudioSeg α) : AudioSeg α :=
  if audio.frame_rate ≠ target_sr then audio.set_frame_rate target_sr else audio

/-- Character-level model of str.startswith for the second argument. -/
def chars_startsWith : List Char → List Char → Bool
  | _, [] => true
  | [], _ :: _ => false
  | c :: s, d :: ds => (c = d) && chars_startsWith s ds

/-- Model of s.startswith(p) on strings. -/
def strStartsWith (s p : String) : Bool :=
  chars_startsWith s.data p.data

/-- Helper of splitOnChar, accumulating the current piece in reverse. -/
def splitOnCharAux (sep : Char) : List Char → List Char → List (List Char)
  | [], acc => [acc.reverse]
  | c :: cs, acc =>
    if c = sep then acc.reverse :: splitOnCharAux sep cs []
    else splitOnCharAux sep cs (c :: acc)

/-- Splitting a character list on a single separator character. -/
def splitOnChar (sep : Char) (s : List Char) : List (List Char) :=
  splitOnCharAux sep s []

/-- Joining character lists with a single separator character. -/
def intercalateChar (sep : Char) : List (List Char) → List Char
  | [] => []
  | [x] => x
  | x :: y :: xs => x ++ sep :: intercalateChar sep (y :: xs)

/-- Model of pathlib stem extraction on a file name: the name without its
final dot suffix; a lone leading dot (hidden file) carries no suffix. -/
def stemOf (name : List Char) : List Char :=
  let parts := splitOnChar '.' name
  if parts.length ≤ 1 then name
  else if parts.headD [] = [] ∧ parts.length = 2 then name
  else intercalateChar '.' parts.dropLast

/-- Model of pathlib.Path(path).with_suffix(suffix): raises ValueError
(returns none) when the suffix is nonempty and does not start with a dot,
or is a bare dot; otherwise replaces the suffix of the final component. -/
def with_suffix (path : String) (suffix : String) : Option String :=
  if suffix ≠ "" ∧ (strStartsWith suffix "." = false ∨ suffix = ".") then none
  else
    let comps := splitOnChar '/' path.data
    some (String.mk (intercalateChar '/'
      (comps.dropLast ++ [stemOf (comps.getLastD []) ++ suffix.data])))

/-- Model of the Python format f-string part number padding i:02d. -/
def pad2 (n : Nat) : String :=
  if n < 10 then "0" ++ toString n else toString n

/-- One file written to disk by convert_audio: its path and content. -/
structure ExportEvent (α : Type) where
  path : String
  content : AudioSeg α
deriving DecidableEq, Repr

/-- The body of the try block of convert_audio(input_path, output_path,
target_sr, max_duration). decode models AudioSegment.from_file (none is a
decode failure). The float comparison len(audio)/1000 > max_duration is
exactly len(audio) > max_duration * 1000 on integers. The result is the
ordered list of files exported; every possible error precedes the first
export call in the source, so an error means nothing was written. -/
def convert_audio_body {α : Type} (decode : String → Option (AudioSeg α))
    (input_path : String) (output_path : Option String)
    (target_sr : Nat) (max_duration : Nat) : Except PyErr (List (ExportEvent α)) :=
  match decode input_path with
  | none => Except.error PyErr.decodeError
  | some loaded =>
    let audio := normalize target_sr loaded
    if max_duration * 1000 < audio.samples.length then
      match split_audio audio (max_duration * 1000) with
      | Except.error e => Except.error e
      | Except.ok segments =>
        match with_suffix (match output_path with | none => input_path | some op => op) "" with
        | none => Except.error PyErr.valueError
        | some base_path =>
          Except.ok (segments.enum.map (fun p =>
            ExportEvent.mk (base_path ++ "_part" ++ pad2 (p.fst + 1) ++ ".wav") p.snd))
    else
      match output_path with
      | none =>
        match with_suffix input_path "_16khz.wav" with
        | none => Except.error PyErr.valueError
        | some out => Except.ok [ExportEvent.mk out audio]
      | some out => Except.ok [ExportEvent.mk out audio]

/-- Model of convert_audio: the try/except wrapper. The first component is
the value the Python function returns (True on success, False when the body
raised); the second is the export log of the run. -/
def convert_audio {α : Type} (decode : String → Option (AudioSeg α))
    (input_path : String) (output_path : Option String)
    (target_sr : Nat) (max_duration : Nat) : Bool × List (ExportEvent α) :=
  match convert_audio_body decode input_path output_path target_sr max_duration with
  | Except.ok ex => (true, ex)
  | Except.error _ => (false, [])

/-- Modelled from the spec: the repository sources contain no cleanup
implementation; section 4.3 of the spec specifies cleanup(paths): for each
path, delete it if it exists; deleting a non-existent path is a no-op, not
an error. The filesystem is the list of existing paths. -/
def cleanup (fs : List String) (paths : List String) : List String :=
  paths.foldl (fun acc p => if p ∈ acc then acc.erase p else acc) fs

/-- Response of the GET media endpoint: a binary file response or the
not-found JSON body. -/
inductive MediaResponse where
  | file (path : String) (filename : String)
  | notFound
deriving DecidableEq, Repr

/-- The storage directory of src/api/fast.py. -/
def UPLOAD_DIR : String := "uploaded_audio"

/-- Model of os.path.join(dir, name) for a relative name. -/
def pathJoin (a b : String) : String :=
  a ++ "/" ++ b

/-- Model of return_media(file_name) over the directory listing: return the
first listed file whose name starts with file_name as a file response, else
the JSON error body. -/
def return_media (listing : List String) (file_name : String) : MediaResponse :=
  match listing with
  | [] => MediaResponse.notFound
  | f :: rest =>
    if strStartsWith f file_name then MediaResponse.file (pathJoin UPLOAD_DIR f) f
    else return_media rest file_name

/-- Outcome of one transcribe invocation: the response (none models an
exception propagating to the framework) and the files this invocation
created that still exist when control leaves the handler. -/
structure TranscribeOutcome where
  response : Option (String × String)
  files_remaining : List String
deriving DecidableEq, Repr

/-- Model of the transcribe handler of src/api/fast.py: the upload is
written to UPLOAD_DIR/filename, librosa.load may raise (load = none), the
model inference may raise (infer = none). The os.remove call in the source
is commented out, so the written file remains on disk on every path. -/
def transcribe {W : Type} (load : String → Option W) (infer : W → Option String)
    (filename : String) : TranscribeOutcome :=
  let audio_path := pathJoin UPLOAD_DIR filename
  match load audio_path with
  | none => TranscribeOutcome.mk none [audio_path]
  | some w =>
    match infer w with
    | none => TranscribeOutcome.mk none [audio_path]
    | some t => TranscribeOutcome.mk (some (t, filename)) [audio_path]

/-- A concrete decoder knowing one short file, for witnesses. -/
def decodeA : String → Option (AudioSeg Nat) :=
  fun s => if s = "a.mp3" then some (AudioSeg.mk 44100 [0, 1, 2]) else none

/-- A concrete decoder knowing two distinct short files, for witnesses. -/
def decodeAB : String → Option (AudioSeg Nat) :=
  fun s =>
    if s = "a.mp3" then some (AudioSeg.mk 16000 [0])
    else if s = "b.ogg" then some (AudioSeg.mk 16000 [1]) else none

/-- A concrete decoder knowing one file longer than one second, for witnesses. -/
def decodeLong : String → Option (AudioSeg Nat) :=
  fun s => if s = "long.mp3" then some (AudioSeg.mk 8000 (List.replicate 1001 0)) else none

/-- Specification of the segment list produced by split_audio on a buffer of
d milliseconds with window L: exactly ceil(d / L) segments, in order, the
i-th being the slice starting at i * L, jointly reassembling the buffer,
each of length L except possibly the last, which is never longer. -/
def SegmentsSpec {α : Type} (audio : AudioSeg α) (L : Nat) (segs : List (AudioSeg α)) : Prop :=
  segs.length = (audio.samples.length + L - 1) / L ∧
  (audio.samples.length = 0 → segs = []) ∧
  (segs.map AudioSeg.samples).flatten = audio.samples ∧
  (∀ i, ∀ h : i < segs.length,
    segs[i].frame_rate = audio.frame_rate ∧
    segs[i].samples = (audio.samples.drop (i * L)).take L) ∧
  (∀ i, ∀ h : i < segs.length, i + 1 < segs.length → segs[i].samples.length = L) ∧
  (∀ i, ∀ h : i < segs.length, segs[i].samples.length ≤ L)

/-- Specification of the splitting branch of convert_audio: the segmenter is
invoked with max_duration * 1000 milliseconds, ceil(d / (m * 1000)) segments
come back, and exactly one file per segment is exported, in order. -/
def SplitBranchSpec {α : Type} (decode : String → Option (AudioSeg α))
    (ip : String) (op : Option String) (t m : Nat) (audio : AudioSeg α) : Prop :=
  ∃ segs base,
    split_audio (normalize t audio) (m * 1000) = Except.ok segs ∧
    segs.length = (audio.samples.length + m * 1000 - 1) / (m * 1000) ∧
    with_suffix (match op with | none => ip | some o => o) "" = some base ∧
    convert_audio decode ip op t m =
      (true, segs.enum.map (fun p =>
        ExportEvent.mk (base ++ "_part" ++ pad2 (p.fst + 1) ++ ".wav") p.snd))

lemma split_audio_loop_pos {α : Type} (samples : List α) (L start : Nat)
    (h : 0 < L ∧ start < samples.length) :
    split_audio_loop samples L start =
      pySlice samples start (min (start + L) samples.length) ::
        split_audio_loop samples L (start + L) := by
  rw [split_audio_loop.eq_def, dif_pos h]

lemma split_audio_loop_neg {α : Type} (samples : List α) (L start : Nat)
    (h : ¬ (0 < L ∧ start < samples.length)) :
    split_audio_loop samples L start = [] := by
  rw [split_audio_loop.eq_def, dif_neg h]

lemma split_audio_loop_characterize {α : Type} (samples : List α) (L : Nat) (hL : 0 < L) :
    ∀ n start, samples.length - start ≤ n →
      split_audio_loop samples L start =
        (List.range ((samples.length - start + L - 1) / L)).map
          (fun i => (samples.drop (start + i * L)).take L) := by
  intro n
  induction n with
  | zero =>
    intro start hstart
    rw [split_audio_loop_neg samples L start (by omega)]
    rw [Nat.div_eq_of_lt (by omega)]
    rfl
  | succ n ih =>
    intro start hstart
    by_cases hs : start < samples.length
    · rw [split_audio_loop_pos samples L start ⟨hL, hs⟩]
      rw [ih (start + L) (by omega)]
      have hcount : (samples.length - start + L - 1) / L
          = (samples.length - (start + L) + L - 1) / L + 1 := by
        have e1 : samples.length - start + L - 1 = (samples.length - start - 1) + L := by
          omega
        have e2 : (samples.length - start - 1) / L
            = (samples.length - (start + L) + L - 1) / L := by
          rcases Nat.lt_or_ge L (samples.length - start) with hc | hc
          · have e3 : samples.length - start - 1 = samples.length - (start + L) + L - 1 := by
              omega
            rw [e3]
          · rw [Nat.div_eq_of_lt (by omega), Nat.div_eq_of_lt (by omega)]
        rw [e1, Nat.add_div_right _ hL, e2]
      rw [hcount, List.range_succ_eq_map]
      simp only [List.map_cons, List.map_map]
      congr 1
      · unfold pySlice
        rw [show start + 0 * L = start by ring]
        rw [List.take_eq_take]
        simp only [List.length_drop]
        omega
      · apply List.map_congr_left
        intro i hi
        simp only [Function.comp]
        rw [show start + L + i * L = start + (i + 1) * L by ring]
    · rw [split_audio_loop_neg samples L start (by omega)]
      rw [Nat.div_eq_of_lt (by omega)]
      rfl

lemma split_audio_loop_join_drop {α : Type} (samples : List α) (L : Nat) (hL : 0 < L) :
    ∀ n start, samples.length - start ≤ n →
      (split_audio_loop samples L start).flatten = samples.drop start := by
  intro n
  induction n with
  | zero =>
    intro start hstart
    rw [split_audio_loop_neg samples L start (by omega)]
    rw [List.drop_eq_nil_of_le (by omega)]
    rfl
  | succ n ih =>
    intro start hstart
    by_cases hs : start < samples.length
    · rw [split_audio_loop_pos samples L start ⟨hL, hs⟩]
      rw [List.flatten_cons]
      rw [ih (start + L) (by omega)]
      unfold pySlice
      have ht : (samples.drop start).take (min (start + L) samples.length - start)
          = (samples.drop start).take L := by
        rw [List.take_eq_take]
        simp only [List.length_drop]
        omega
      rw [ht]
      have hdd : samples.drop (start + L) = (samples.drop start).drop L := by
        rw [List.drop_drop]
      rw [hdd, List.take_append_drop]
    · rw [split_audio_loop_neg samples L start (by omega)]
      rw [List.drop_eq_nil_of_le (by omega)]
      rfl

lemma split_audio_loop_zero {α : Type} (samples : List α) (L : Nat) (hL : 0 < L) :
    split_audio_loop samples L 0 =
      (List.range ((samples.length + L - 1) / L)).map
        (fun i => (samples.drop (i * L)).take L) := by
  have h := split_audio_loop_characterize samples L hL samples.length 0 (by omega)
  simpa using h

lemma normalize_samples {α : Type} (t : Nat) (audio : AudioSeg α) :
    (normalize t audio).samples = audio.samples := by
  unfold normalize AudioSeg.set_frame_rate
  by_cases h : audio.frame_rate ≠ t
  · rw [if_pos h]
  · rw [if_neg h]

lemma normalize_rate {α : Type} (t : Nat) (audio : AudioSeg α) :
    (normalize t audio).frame_rate = t := by
  unfold normalize AudioSeg.set_frame_rate
  by_cases h : audio.frame_rate ≠ t
  · rw [if_pos h]
  · rw [if_neg h]
    omega

lemma convert_audio_of_ok {α : Type} (decode : String → Option (AudioSeg α))
    (ip : String) (op : Option String) (t m : Nat) (ex : List (ExportEvent α))
    (h : convert_audio_body decode ip op t m = Except.ok ex) :
    convert_audio decode ip op t m = (true, ex) := by
  unfold convert_audio
  rw [h]

lemma convert_audio_of_err {α : Type} (decode : String → Option (AudioSeg α))
    (ip : String) (op : Option String) (t m : Nat) (e : PyErr)
    (h : convert_audio_body decode ip op t m = Except.error e) :
    convert_audio decode ip op t m = (false, []) := by
  unfold convert_audio
  rw [h]

lemma with_suffix_empty (p : String) : ∃ b, with_suffix p "" = some b := by
  unfold with_suffix
  rw [if_neg (by simp)]
  exact ⟨_, rfl⟩

lemma with_suffix_16khz (p : String) : with_suffix p "_16khz.wav" = none := by
  unfold with_suffix
  have hc : ("_16khz.wav" : String) ≠ "" ∧
      (strStartsWith "_16khz.wav" "." = false ∨ ("_16khz.wav" : String) = ".") :=
    ⟨by decide, Or.inl (by decide)⟩
  rw [if_pos hc]

lemma segments_spec_core {α : Type} (audio : AudioSeg α) (L : Nat) (hL : 0 < L) :
    SegmentsSpec audio L ((List.range ((audio.samples.length + L - 1) / L)).map
      (fun i => AudioSeg.mk audio.frame_rate ((audio.samples.drop (i * L)).take L))) := by
  have hchar := split_audio_loop_zero audio.samples L hL
  have hjoin := split_audio_loop_join_drop audio.samples L hL audio.samples.length 0 (by omega)
  simp only [List.drop_zero] at hjoin
  refine ⟨?_, ?_, ?_, ?_, ?_, ?_⟩
  · rw [List.length_map, List.length_range]
  · intro h0
    rw [h0]
    rw [show (0 + L - 1) / L = 0 from Nat.div_eq_of_lt (by omega)]
    rfl
  · simp only [List.map_map]
    have e : ((fun a => a.samples) ∘
        fun i => AudioSeg.mk audio.frame_rate ((audio.samples.drop (i * L)).take L))
        = fun i => (audio.samples.drop (i * L)).take L := rfl
    rw [e, ← hchar]
    exact hjoin
  · intro i h
    refine ⟨?_, ?_⟩
    · rw [List.getElem_map, List.getElem_range]
    · rw [List.getElem_map, List.getElem_range]
  · intro i h h2
    rw [List.getElem_map, List.getElem_range]
    show ((audio.samples.drop (i * L)).take L).length = L
    rw [List.length_take, List.length_drop]
    have hlt : i + 2 ≤ (audio.samples.length + L - 1) / L := by
      rw [List.length_map, List.length_range] at h2
      omega
    have hb : (i + 2) * L ≤ ((audio.samples.length + L - 1) / L) * L :=
      Nat.mul_le_mul_right L hlt
    have hc2 : ((audio.samples.length + L - 1) / L) * L ≤ audio.samples.length + L - 1 :=
      Nat.div_mul_le_self _ _
    have he : i * L + 2 * L ≤ audio.samples.length + L - 1 := by
      calc i * L + 2 * L = (i + 2) * L := by ring
        _ ≤ ((audio.samples.length + L - 1) / L) * L := hb
        _ ≤ audio.samples.length + L - 1 := hc2
    obtain ⟨x, hx⟩ : ∃ x, i * L = x := ⟨_, rfl⟩
    rw [hx] at he ⊢
    omega
  · intro i h
    rw [List.getElem_map, List.getElem_range]
    show ((audio.samples.drop (i * L)).take L).length ≤ L
    rw [List.length_take]
    exact Nat.min_le_left _ _

/-- Claim C1: for every audio buffer of duration d ≥ 0 milliseconds and
every segment length L > 0 milliseconds, split_audio returns exactly
ceil(d / L) segments (zero segments when d = 0), ordered by start offset,
pairwise non-overlapping and contiguous (the i-th segment is the slice
starting at i * L, and their concatenation reassembles the buffer, so the
time ranges cover 0 to d exactly), with every segment of length L except
possibly the last, which is never longer. -/
theorem split_audio_spec {α : Type} (audio : AudioSeg α) (L : Nat) (hL : 0 < L) :
    ∃ segs, split_audio audio L = Except.ok segs ∧ SegmentsSpec audio L segs := by
  refine ⟨(split_audio_loop audio.samples L 0).map
    (fun s => AudioSeg.mk audio.frame_rate s), ?_, ?_⟩
  · unfold split_audio
    rw [if_neg (by omega)]
  · have hchar := split_audio_loop_zero audio.samples L hL
    rw [hchar, List.map_map]
    exact segments_spec_core audio L hL

/-- Witness for split_audio_spec at a five-millisecond buffer and a window
of two milliseconds. -/
theorem split_audio_spec_witness :
    0 < 2 ∧ ∃ segs, split_audio (AudioSeg.mk 44100 ([0, 1, 2, 3, 4] : List Nat)) 2
      = Except.ok segs ∧ SegmentsSpec (AudioSeg.mk 44100 [0, 1, 2, 3, 4]) 2 segs :=
  ⟨by decide, split_audio_spec (AudioSeg.mk 44100 [0, 1, 2, 3, 4]) 2 (by decide)⟩

/-- Claim C6: in convert_audio the loaded buffer is resampled to
target_sample_rate exactly when its rate differs from the target; when the
rates already match the normalize step leaves the buffer unchanged, and in
either case the duration in milliseconds is preserved. -/
theorem normalize_noop_iff {α : Type} (audio : AudioSeg α) (t : Nat) :
    (audio.frame_rate = t → normalize t audio = audio) ∧
    (audio.frame_rate ≠ t → normalize t audio = audio.set_frame_rate t) ∧
    (normalize t audio).frame_rate = t ∧
    (normalize t audio).samples = audio.samples := by
  refine ⟨?_, ?_, normalize_rate t audio, normalize_samples t audio⟩
  · intro h
    unfold normalize
    rw [if_neg (by omega)]
  · intro h
    unfold normalize
    rw [if_pos h]

/-- Witness for normalize_noop_iff: a buffer at 44100 Hz is resampled to
16000 Hz, and a buffer already at 16000 Hz is left unchanged. -/
theorem normalize_noop_iff_witness :
    ((AudioSeg.mk 44100 ([0] : List Nat)).frame_rate ≠ 16000 ∧
      normalize 16000 (AudioSeg.mk 44100 ([0] : List Nat))
        = (AudioSeg.mk 44100 ([0] : List Nat)).set_frame_rate 16000) ∧
    ((AudioSeg.mk 16000 ([0] : List Nat)).frame_rate = 16000 ∧
      normalize 16000 (AudioSeg.mk 16000 ([0] : List Nat))
        = AudioSeg.mk 16000 ([0] : List Nat)) :=
  ⟨⟨by decide, (normalize_noop_iff (AudioSeg.mk 44100 ([0] : List Nat)) 16000).2.1 (by decide)⟩,
   ⟨rfl, (normalize_noop_iff (AudioSeg.mk 16000 ([0] : List Nat)) 16000).1 rfl⟩⟩

lemma body_decode_none {α : Type} (decode : String → Option (AudioSeg α))
    (ip : String) (op : Option String) (t m : Nat) (hd : decode ip = none) :
    convert_audio_body decode ip op t m = Except.error PyErr.decodeError := by
  simp only [convert_audio_body, hd]

lemma body_short_some {α : Type} (decode : String → Option (AudioSeg α))
    (ip o : String) (t m : Nat) (audio : AudioSeg α)
    (hd : decode ip = some audio) (hshort : audio.samples.length ≤ m * 1000) :
    convert_audio_body decode ip (some o) t m
      = Except.ok [ExportEvent.mk o (normalize t audio)] := by
  simp only [convert_audio_body, hd]
  rw [if_neg (by rw [normalize_samples]; omega)]

lemma body_short_none {α : Type} (decode : String → Option (AudioSeg α))
    (ip : String) (t m : Nat) (audio : AudioSeg α)
    (hd : decode ip = some audio) (hshort : audio.samples.length ≤ m * 1000) :
    convert_audio_body decode ip none t m = Except.error PyErr.valueError := by
  simp only [convert_audio_body, hd]
  rw [if_neg (by rw [normalize_samples]; omega)]
  rw [with_suffix_16khz]

lemma body_long {α : Type} (decode : String → Option (AudioSeg α))
    (ip : String) (op : Option String) (t m : Nat) (audio : AudioSeg α)
    (hd : decode ip = some audio) (hlong : m * 1000 < audio.samples.length)
    (segs : List (AudioSeg α))
    (hsplit : split_audio (normalize t audio) (m * 1000) = Except.ok segs)
    (base : String)
    (hbase : with_suffix (match op with | none => ip | some o => o) "" = some base) :
    convert_audio_body decode ip op t m
      = Except.ok (segs.enum.map (fun p =>
          ExportEvent.mk (base ++ "_part" ++ pad2 (p.fst + 1) ++ ".wav") p.snd)) := by
  simp only [convert_audio_body, hd]
  rw [if_pos (by rw [normalize_samples]; omega)]
  rw [hsplit, hbase]

/-- Claim C2 (amended): when max_duration_s > 0 and the input decodes,
convert_audio splits by invoking the segmenter with segment length
max_duration_s * 1000 milliseconds and exports exactly one file per segment
iff duration_s > max_duration_s; when duration_s ≤ max_duration_s it exports
the whole buffer as one file only if an output_path was supplied — with
output_path omitted the default name construction raises ValueError and
nothing is exported (see the counterexample for the unamended claim). -/
theorem convert_audio_split_iff {α : Type} (decode : String → Option (AudioSeg α))
    (ip : String) (op : Option String) (t m : Nat) (audio : AudioSeg α)
    (hd : decode ip = some audio) (hm : 0 < m) :
    (m * 1000 < audio.samples.length → SplitBranchSpec decode ip op t m audio) ∧
    (audio.samples.length ≤ m * 1000 →
      (∀ o, op = some o →
        convert_audio decode ip op t m = (true, [ExportEvent.mk o (normalize t audio)])) ∧
      (op = none → convert_audio decode ip op t m = (false, []))) := by
  constructor
  · intro hlong
    have hL : 0 < m * 1000 := by omega
    obtain ⟨segs, hsplit, hspec⟩ := split_audio_spec (normalize t audio) (m * 1000) hL
    obtain ⟨base, hbase⟩ := with_suffix_empty (match op with | none => ip | some o => o)
    refine ⟨segs, base, hsplit, ?_, hbase, ?_⟩
    · have hc := hspec.1
      rw [normalize_samples] at hc
      exact hc
    · exact convert_audio_of_ok _ _ _ _ _ _
        (body_long decode ip op t m audio hd hlong segs hsplit base hbase)
  · intro hshort
    constructor
    · intro o ho
      rw [ho]
      exact convert_audio_of_ok _ _ _ _ _ _
        (body_short_some decode ip o t m audio hd hshort)
    · intro ho
      rw [ho]
      exact convert_audio_of_err _ _ _ _ _ PyErr.valueError
        (body_short_none decode ip t m audio hd hshort)

/-- Witness for convert_audio_split_iff at a 1001 millisecond input with a
one second window and no output path. -/
theorem convert_audio_split_iff_witness :
    decodeLong "long.mp3" = some (AudioSeg.mk 8000 (List.replicate 1001 0)) ∧ 0 < 1 ∧
    ((1 * 1000 < (AudioSeg.mk 8000 (List.replicate 1001 (0 : Nat))).samples.length →
        SplitBranchSpec decodeLong "long.mp3" none 16000 1
          (AudioSeg.mk 8000 (List.replicate 1001 0))) ∧
      ((AudioSeg.mk 8000 (List.replicate 1001 (0 : Nat))).samples.length ≤ 1 * 1000 →
        (∀ o, (none : Option String) = some o →
          convert_audio decodeLong "long.mp3" none 16000 1
            = (true, [ExportEvent.mk o
                (normalize 16000 (AudioSeg.mk 8000 (List.replicate 1001 0)))])) ∧
        ((none : Option String) = none →
          convert_audio decodeLong "long.mp3" none 16000 1 = (false, [])))) :=
  ⟨rfl, by decide,
    convert_audio_split_iff decodeLong "long.mp3" none 16000 1
      (AudioSeg.mk 8000 (List.replicate 1001 0)) rfl (by decide)⟩

/-- Counterexample to claim C2 as stated: a three millisecond input with
max_duration 30 seconds and no output_path supplied. The claim says the
whole buffer is exported as a single file; the code raises ValueError in
Path(input_path).with_suffix and returns False with nothing exported. -/
theorem convert_audio_short_default_cex :
    (AudioSeg.mk 44100 ([0, 1, 2] : List Nat)).samples.length ≤ 30 * 1000 ∧
    decodeA "a.mp3" = some (AudioSeg.mk 44100 [0, 1, 2]) ∧
    convert_audio decodeA "a.mp3" none 16000 30 = (false, []) := by
  decide

/-- Counterexample to claim C3 as stated: the value convert_audio returns is
the first component of the model pair (the Python return value), and the
second component is the log of files the run created on disk. Two runs that
create different files return equal values, so the return value cannot be
the claimed pair of the waveform sequence and the created temp paths. -/
theorem convert_audio_return_pair_cex :
    (convert_audio decodeAB "a.mp3" (some "out1.wav") 16000 30).fst
      = (convert_audio decodeAB "b.ogg" (some "out2.wav") 16000 30).fst ∧
    (convert_audio decodeAB "a.mp3" (some "out1.wav") 16000 30).snd
      ≠ (convert_audio decodeAB "b.ogg" (some "out2.wav") 16000 30).snd := by
  decide

/-- Claim C3 (amended): convert_audio returns a single boolean — True
exactly when the body succeeded, False exactly when some step raised — and
not the pair of waveforms and created temp paths the spec contract
describes; the created files are only observable as on-disk effects. -/
theorem convert_audio_returns_bool {α : Type} (decode : String → Option (AudioSeg α))
    (ip : String) (op : Option String) (t m : Nat) :
    ((convert_audio decode ip op t m).fst = true ↔
      ∃ ex, convert_audio_body decode ip op t m = Except.ok ex) ∧
    ((convert_audio decode ip op t m).fst = false ↔
      ∃ e, convert_audio_body decode ip op t m = Except.error e) := by
  cases hb : convert_audio_body decode ip op t m with
  | ok ex =>
    rw [convert_audio_of_ok decode ip op t m ex hb]
    simp
  | error e =>
    rw [convert_audio_of_err decode ip op t m e hb]
    simp

/-- Witness for convert_audio_returns_bool at a successful run. -/
theorem convert_audio_returns_bool_witness :
    (convert_audio decodeA "a.mp3" (some "o.wav") 16000 30).fst = true :=
  (convert_audio_returns_bool decodeA "a.mp3" (some "o.wav") 16000 30).1.mpr
    ⟨[ExportEvent.mk "o.wav" (AudioSeg.mk 16000 [0, 1, 2])], by decide⟩

/-- Counterexample to claim C5 as stated: on an input the decoder cannot
read, the decode step fails inside the body, but convert_audio returns the
ordinary value (False, no exports) — the error does not propagate out of
the preprocessing operation to its caller. -/
theorem decode_error_not_propagated_cex :
    convert_audio_body decodeA "bad.xyz" none 16000 30 = Except.error PyErr.decodeError ∧
    convert_audio decodeA "bad.xyz" none 16000 30 = (false, []) := by
  decide

/-- Claim C5 (amended): for every input whose decode fails, the decode step
fails with a DecodeError that is not retried (the body evaluates the
decoder once and stops), but it does not propagate: the blanket except of
convert_audio converts it into a False return with nothing exported. -/
theorem decode_error_caught {α : Type} (decode : String → Option (AudioSeg α))
    (ip : String) (op : Option String) (t m : Nat) (hd : decode ip = none) :
    convert_audio_body decode ip op t m = Except.error PyErr.decodeError ∧
    convert_audio decode ip op t m = (false, []) := by
  have hb := body_decode_none decode ip op t m hd
  exact ⟨hb, convert_audio_of_err _ _ _ _ _ PyErr.decodeError hb⟩

/-- Witness for decode_error_caught at a concrete unreadable input. -/
theorem decode_error_caught_witness :
    decodeA "bad.xyz" = none ∧
    (convert_audio_body decodeA "bad.xyz" none 16000 30 = Except.error PyErr.decodeError ∧
      convert_audio decodeA "bad.xyz" none 16000 30 = (false, [])) :=
  ⟨by decide, decode_error_caught decodeA "bad.xyz" none 16000 30 (by decide)⟩

/-- Claim C9: convert_audio never lets an exception escape: it returns True
with the export log when the body succeeds, and returns False (with nothing
exported, since every body failure precedes the first export) when any step
of the body raises. -/
theorem convert_audio_total {α : Type} (decode : String → Option (AudioSeg α))
    (ip : String) (op : Option String) (t m : Nat) :
    (∀ ex, convert_audio_body decode ip op t m = Except.ok ex →
      convert_audio decode ip op t m = (true, ex)) ∧
    (∀ e, convert_audio_body decode ip op t m = Except.error e →
      convert_audio decode ip op t m = (false, [])) :=
  ⟨fun ex h => convert_audio_of_ok decode ip op t m ex h,
   fun e h => convert_audio_of_err decode ip op t m e h⟩

/-- Witness for convert_audio_total at a failing decode. -/
theorem convert_audio_total_witness :
    convert_audio_body decodeA "nope.wav" none 16000 30 = Except.error PyErr.decodeError ∧
    convert_audio decodeA "nope.wav" none 16000 30 = (false, []) :=
  ⟨by decide,
    (convert_audio_total decodeA "nope.wav" none 16000 30).2 PyErr.decodeError (by decide)⟩

/-- Claim C10: for every decodable input of duration at most max_duration
seconds with no output_path supplied, convert_audio writes no output and
returns False, because building the default output name with
Path(input_path).with_suffix of a suffix lacking a leading dot raises
ValueError, which the except block converts into a False return. -/
theorem convert_audio_default_short_fails {α : Type}
    (decode : String → Option (AudioSeg α)) (ip : String) (t m : Nat)
    (audio : AudioSeg α) (hd : decode ip = some audio)
    (hshort : audio.samples.length ≤ m * 1000) :
    convert_audio_body decode ip none t m = Except.error PyErr.valueError ∧
    convert_audio decode ip none t m = (false, []) := by
  have hb := body_short_none decode ip t m audio hd hshort
  exact ⟨hb, convert_audio_of_err _ _ _ _ _ PyErr.valueError hb⟩

/-- Witness for convert_audio_default_short_fails at a three millisecond
input with the default 30 second limit. -/
theorem convert_audio_default_short_fails_witness :
    decodeA "a.mp3" = some (AudioSeg.mk 44100 [0, 1, 2]) ∧
    (AudioSeg.mk 44100 ([0, 1, 2] : List Nat)).samples.length ≤ 30 * 1000 ∧
    (convert_audio_body decodeA "a.mp3" none 16000 30 = Except.error PyErr.valueError ∧
      convert_audio decodeA "a.mp3" none 16000 30 = (false, [])) :=
  ⟨by decide, by decide,
    convert_audio_default_short_fails decodeA "a.mp3" 16000 30
      (AudioSeg.mk 44100 [0, 1, 2]) (by decide) (by decide)⟩

lemma cleanup_cons (fs : List String) (p : String) (rest : List String) :
    cleanup fs (p :: rest) = cleanup (if p ∈ fs then fs.erase p else fs) rest := rfl

lemma cleanup_subset (paths : List String) :
    ∀ fs q, q ∈ cleanup fs paths → q ∈ fs := by
  induction paths with
  | nil =>
    intro fs q h
    simpa [cleanup] using h
  | cons p rest ih =>
    intro fs q h
    rw [cleanup_cons] at h
    have h2 := ih _ _ h
    by_cases hp : p ∈ fs
    · rw [if_pos hp] at h2
      exact List.mem_of_mem_erase h2
    · rw [if_neg hp] at h2
      exact h2

lemma cleanup_removes (paths : List String) :
    ∀ fs p, fs.Nodup → p ∈ paths → p ∉ cleanup fs paths := by
  induction paths with
  | nil =>
    intro fs p _ hp
    cases hp
  | cons q rest ih =>
    intro fs p hnd hp
    rw [cleanup_cons]
    rcases List.mem_cons.mp hp with he | hr
    · subst he
      intro hmem
      have h2 := cleanup_subset rest _ _ hmem
      by_cases hq : p ∈ fs
      · rw [if_pos hq] at h2
        rcases (List.Nodup.mem_erase_iff hnd).mp h2 with ⟨hne, _⟩
        exact hne rfl
      · rw [if_neg hq] at h2
        exact hq h2
    · apply ih
      · by_cases hq : q ∈ fs
        · rw [if_pos hq]
          exact hnd.erase q
        · rw [if_neg hq]
          exact hnd
      · exact hr

lemma cleanup_keeps (paths : List String) :
    ∀ fs q, q ∈ fs → q ∉ paths → q ∈ cleanup fs paths := by
  induction paths with
  | nil =>
    intro fs q hq _
    simpa [cleanup] using hq
  | cons p rest ih =>
    intro fs q hq hnp
    rw [cleanup_cons]
    have hqp : q ≠ p := by
      intro e
      exact hnp (by rw [e]; exact List.mem_cons_self p rest)
    apply ih
    · by_cases hp : p ∈ fs
      · rw [if_pos hp]
        exact (List.mem_erase_of_ne hqp).mpr hq
      · rw [if_neg hp]
        exact hq
    · intro hr
      exact hnp (List.mem_cons_of_mem p hr)

lemma cleanup_fixed (paths : List String) :
    ∀ fs, (∀ p, p ∈ paths → p ∉ fs) → cleanup fs paths = fs := by
  induction paths with
  | nil =>
    intro fs _
    rfl
  | cons p rest ih =>
    intro fs h
    rw [cleanup_cons, if_neg (h p (List.mem_cons_self p rest))]
    exact ih fs (fun q hq => h q (List.mem_cons_of_mem p hq))

/-- Claim C7: cleanup, applied to a duplicate-free filesystem, deletes each
listed path that exists, leaves every other file alone (so a non-existent
path is a no-op, not an error — cleanup is total by construction), and is
idempotent: a second run over the same path list changes nothing. -/
theorem cleanup_spec (fs paths : List String) (h : fs.Nodup) :
    (∀ p, p ∈ paths → p ∉ cleanup fs paths) ∧
    (∀ q, q ∈ fs → q ∉ paths → q ∈ cleanup fs paths) ∧
    cleanup (cleanup fs paths) paths = cleanup fs paths :=
  ⟨fun p hp => cleanup_removes paths fs p h hp,
   fun q hq hnp => cleanup_keeps paths fs q hq hnp,
   cleanup_fixed paths _ (fun p hp => cleanup_removes paths fs p h hp)⟩

/-- Witness for cleanup_spec on a two-file filesystem, deleting one existing
and one missing path. -/
theorem cleanup_spec_witness :
    (["a", "b"] : List String).Nodup ∧
    ((∀ p, p ∈ (["a", "c"] : List String) → p ∉ cleanup ["a", "b"] ["a", "c"]) ∧
      (∀ q, q ∈ (["a", "b"] : List String) → q ∉ (["a", "c"] : List String) →
        q ∈ cleanup ["a", "b"] ["a", "c"]) ∧
      cleanup (cleanup ["a", "b"] ["a", "c"]) ["a", "c"] = cleanup ["a", "b"] ["a", "c"]) :=
  ⟨by decide, cleanup_spec ["a", "b"] ["a", "c"] (by decide)⟩

/-- Claim C8: GET media over any directory listing returns the first listed
file whose name starts with file_name as a binary file response, and the
not-found JSON body when no name matches; the handler is a total function,
so no exception is raised. -/
theorem return_media_spec (listing : List String) (file_name : String) :
    return_media listing file_name =
      (match listing.find? (fun f => strStartsWith f file_name) with
        | some f => MediaResponse.file (pathJoin UPLOAD_DIR f) f
        | none => MediaResponse.notFound) := by
  induction listing with
  | nil => rfl
  | cons f rest ih =>
    simp only [return_media]
    by_cases hf : strStartsWith f file_name
    · have hfind : List.find? (fun g => strStartsWith g file_name) (f :: rest) = some f :=
        List.find?_cons_of_pos rest hf
      rw [if_pos hf, hfind]
    · have hfind : List.find? (fun g => strStartsWith g file_name) (f :: rest)
          = List.find? (fun g => strStartsWith g file_name) rest :=
        List.find?_cons_of_neg rest (by simpa using hf)
      rw [if_neg hf, hfind, ih]

/-- Claim C4 failing run: a POST transcribe whose librosa decode raises
after the upload was written. The handler has no try block and the
os.remove call is commented out, so the invocation ends in a propagating
exception (response none) while the file it created is still on disk —
the claimed cleanup-before-propagation does not happen. -/
theorem transcribe_orphan_on_failure :
    (transcribe (fun _ => (none : Option Unit)) (fun _ => some "") "sample.mp3").response
      = none ∧
    (transcribe (fun _ => (none : Option Unit)) (fun _ => some "") "sample.mp3").files_remaining
      = ["uploaded_audio/sample.mp3"] :=
  ⟨rfl, rfl⟩

end Audio2Corpus
